import Mathlib

/-!
Verification of the key-attributes conversion layer of parsec-interface-rs
(`src/operations_protobuf/convert_key_attributes.rs`).

The conversion logic (the four `TryFrom` implementations) is embedded
directly from that source file.  The enum definitions (`KeyType`,
`EccCurve`, `SignAlgorithm`, `HashAlgorithm` with their integer codes),
the domain `Algorithm`/`AlgorithmInner` types, `ResponseStatus`, and the
sentinel accessors produced by the protobuf code generator live elsewhere
in the repository and are modelled from the specification, as marked on
each definition.
-/

namespace ParsecKeyAttrs

/-- Modelled from the spec: the domain `key_type` enum
(`operations::key_attributes::KeyType`, not in the given sources).  The
spec names `RsaKeypair` and speaks of elliptic-curve-capable key types;
we take a representative finite set of variants with distinct integer
codes, as the spec requires an exhaustive code lookup. -/
inductive KeyType where
  | RsaKeypair
  | EccKeypair
deriving DecidableEq

/-- Modelled from the spec: the integer code of each `KeyType` variant
(the `as i32` cast used by the encoder). -/
def KeyType.toI32 : KeyType → Int
  | .RsaKeypair => 8
  | .EccKeypair => 12

/-- Modelled from the spec: `FromPrimitive::from_i32` for `KeyType` —
a total function from integers to an optional variant, `none` exactly on
codes matching no variant. -/
def keyTypeFromI32 (c : Int) : Option KeyType :=
  if c = 8 then some .RsaKeypair
  else if c = 12 then some .EccKeypair
  else none

/-- Modelled from the spec: the domain `ecc_curve` enum
(`operations::key_attributes::EccCurve`).  The spec names `Secp160k1`;
code 0 is the reserved "no curve" sentinel and is not a variant. -/
inductive EccCurve where
  | Secp160k1
  | Secp256r1
deriving DecidableEq

/-- Modelled from the spec: the integer code of each `EccCurve` variant;
every code is nonzero because 0 is the "no curve" sentinel. -/
def EccCurve.toI32 : EccCurve → Int
  | .Secp160k1 => 2
  | .Secp256r1 => 3

/-- Modelled from the spec: `FromPrimitive::from_i32` for `EccCurve`. -/
def eccCurveFromI32 (c : Int) : Option EccCurve :=
  if c = 2 then some .Secp160k1
  else if c = 3 then some .Secp256r1
  else none

/-- Modelled from the spec: the domain `sign_algorithm` enum
(`operations::key_attributes::SignAlgorithm`).  The spec names
`RsaPkcs1v15Sign`. -/
inductive SignAlgorithm where
  | RsaPkcs1v15Sign
  | EcdsaSign
deriving DecidableEq

/-- Modelled from the spec: the integer code of each `SignAlgorithm`
variant. -/
def SignAlgorithm.toI32 : SignAlgorithm → Int
  | .RsaPkcs1v15Sign => 1
  | .EcdsaSign => 2

/-- Modelled from the spec: `FromPrimitive::from_i32` for
`SignAlgorithm`. -/
def signAlgorithmFromI32 (c : Int) : Option SignAlgorithm :=
  if c = 1 then some .RsaPkcs1v15Sign
  else if c = 2 then some .EcdsaSign
  else none

/-- Modelled from the spec: the domain `hash_algorithm` enum
(`operations::key_attributes::HashAlgorithm`).  The spec names `Sha1`;
code 0 is the reserved "no hash algorithm" sentinel and is not a
variant. -/
inductive HashAlgorithm where
  | Sha1
  | Sha256
deriving DecidableEq

/-- Modelled from the spec: the integer code of each `HashAlgorithm`
variant; every code is nonzero because 0 is the "no hash" sentinel. -/
def HashAlgorithm.toI32 : HashAlgorithm → Int
  | .Sha1 => 5
  | .Sha256 => 9

/-- Modelled from the spec: `FromPrimitive::from_i32` for
`HashAlgorithm`. -/
def hashAlgorithmFromI32 (c : Int) : Option HashAlgorithm :=
  if c = 5 then some .Sha1
  else if c = 9 then some .Sha256
  else none

/-- The wire `Sign` sub-message (`generated_ops::key_attributes::Sign`):
two bare integer fields. -/
structure Sign where
  sign_algorithm : Int
  hash_algorithm : Int
deriving DecidableEq

/-- Modelled from the spec: the wire `oneof`-style algorithm sub-message
(`key_attributes_proto::AlgorithmProto`).  Only the `Sign` variant is
handled by this layer; the wire schema anticipates further operation
kinds (encrypt, derive, ...), represented here by a `Cipher` variant. -/
inductive AlgorithmProto where
  | Sign (sign : Sign)
  | Cipher
deriving DecidableEq

/-- Modelled from the spec: the domain algorithm tagged union
(`operations::key_attributes::AlgorithmInner`).  Exactly the `Sign`
variant is supported end to end; other conceptual kinds are represented
by a `Cipher` variant that this layer refuses. -/
inductive AlgorithmInner where
  | Sign (sign : SignAlgorithm) (hash : Option HashAlgorithm)
  | Cipher
deriving DecidableEq

/-- Modelled from the spec: the domain `Algorithm` wrapper over
`AlgorithmInner`, with the `inner()` accessor used by the encoder. -/
structure Algorithm where
  inner : AlgorithmInner
deriving DecidableEq

/-- Modelled from the spec: the `Algorithm::sign` constructor used by the
decoder. -/
def Algorithm.sign (s : SignAlgorithm) (h : Option HashAlgorithm) : Algorithm :=
  ⟨AlgorithmInner.Sign s h⟩

/-- Modelled from the spec: the error type (`requests::ResponseStatus`,
not in the given sources).  This layer produces only `InvalidEncoding`
and `PsaErrorNotSupported`; the type has further variants, represented
here by `PsaErrorGenericError`. -/
inductive ResponseStatus where
  | InvalidEncoding
  | PsaErrorNotSupported
  | PsaErrorGenericError
deriving DecidableEq

/-- The wire record `KeyAttributesProto`: enums as bare integers, the
algorithm as an optional sub-message. -/
structure KeyAttributesProto where
  key_type : Int
  ecc_curve : Int
  algorithm_proto : Option AlgorithmProto
  key_size : Nat
  permit_export : Bool
  permit_encrypt : Bool
  permit_decrypt : Bool
  permit_sign : Bool
  permit_verify : Bool
  permit_derive : Bool
deriving DecidableEq

/-- The domain record `KeyAttributes`. -/
structure KeyAttributes where
  key_type : KeyType
  ecc_curve : Option EccCurve
  algorithm : Algorithm
  key_size : Nat
  permit_export : Bool
  permit_encrypt : Bool
  permit_decrypt : Bool
  permit_sign : Bool
  permit_verify : Bool
  permit_derive : Bool
deriving DecidableEq

/-- Modelled from the spec: the sentinel test performed through the
generated `ecc_curve()` accessor — the distinguished "no curve" code is
0, which the converter intercepts before invoking the validator. -/
def isNoCurveSentinel (c : Int) : Bool := c = 0

/-- Modelled from the spec: the sentinel test performed through the
generated `hash_algorithm()` accessor — the distinguished "no hash
algorithm" code is 0. -/
def isNoHashSentinel (c : Int) : Bool := c = 0

/-- Embeds `TryFrom<AlgorithmProto> for Algorithm`
(convert_key_attributes.rs, lines 86-107): the `Sign` sub-message has
its `sign_algorithm` decoded by exhaustive lookup (failing with
`InvalidEncoding` on an unknown code) and its `hash_algorithm` treated
as absent on the sentinel, decoded otherwise; every other wire variant
fails with `PsaErrorNotSupported`. -/
def algorithmFromProto : AlgorithmProto → Except ResponseStatus Algorithm
  | .Sign sign =>
    match signAlgorithmFromI32 sign.sign_algorithm with
    | none => .error .InvalidEncoding
    | some sa =>
      if isNoHashSentinel sign.hash_algorithm then
        .ok (Algorithm.sign sa none)
      else
        match hashAlgorithmFromI32 sign.hash_algorithm with
        | none => .error .InvalidEncoding
        | some ha => .ok (Algorithm.sign sa (some ha))
  | .Cipher => .error .PsaErrorNotSupported

/-- The sentinel-producing match of the encoder for `ecc_curve`
(convert_key_attributes.rs, lines 70-73): `None` becomes code 0, a
present curve its integer code. -/
def eccOptToI32 : Option EccCurve → Int
  | none => 0
  | some curve => curve.toI32

/-- The sentinel-producing match of the encoder for `hash_algorithm`
(convert_key_attributes.rs, lines 116-119): `None` becomes code 0, a
present hash its integer code. -/
def hashOptToI32 : Option HashAlgorithm → Int
  | none => 0
  | some h => h.toI32

/-- Embeds `TryFrom<Algorithm> for AlgorithmProto`
(convert_key_attributes.rs, lines 109-124): a `Sign` inner value encodes
to the `Sign` sub-message with an absent hash mapped to code 0; every
other domain variant fails with `PsaErrorNotSupported`. -/
def algorithmToProto (alg : Algorithm) : Except ResponseStatus AlgorithmProto :=
  match alg.inner with
  | .Sign s h =>
    .ok (.Sign { sign_algorithm := s.toI32
                 hash_algorithm := hashOptToI32 h })
  | .Cipher => .error .PsaErrorNotSupported

/-- The `ecc_curve` step of the decode (convert_key_attributes.rs,
lines 33-39): the sentinel is intercepted as `None` before the
validator runs; any other code is decoded by exhaustive lookup, failing
with `InvalidEncoding` when unknown. -/
def decodeEccCurve (c : Int) : Except ResponseStatus (Option EccCurve) :=
  if isNoCurveSentinel c then .ok none
  else
    match eccCurveFromI32 c with
    | none => .error .InvalidEncoding
    | some curve => .ok (some curve)

/-- Embeds `TryFrom<KeyAttributesProto> for KeyAttributes`
(convert_key_attributes.rs, lines 25-62), the wire-to-domain decode:
`key_type` is validated first, then `ecc_curve` (with the sentinel
intercepted as `None`), then the algorithm sub-message is required and
converted; `key_size` and the six permission booleans pass through. -/
def decode (attrs : KeyAttributesProto) : Except ResponseStatus KeyAttributes :=
  match keyTypeFromI32 attrs.key_type with
  | none => .error .InvalidEncoding
  | some key_type =>
    match decodeEccCurve attrs.ecc_curve with
    | .error e => .error e
    | .ok ecc_curve =>
      match attrs.algorithm_proto with
      | none => .error .InvalidEncoding
      | some ap =>
        match algorithmFromProto ap with
        | .error e => .error e
        | .ok algorithm =>
          .ok { key_type := key_type
                ecc_curve := ecc_curve
                algorithm := algorithm
                key_size := attrs.key_size
                permit_export := attrs.permit_export
                permit_encrypt := attrs.permit_encrypt
                permit_decrypt := attrs.permit_decrypt
                permit_sign := attrs.permit_sign
                permit_verify := attrs.permit_verify
                permit_derive := attrs.permit_derive }

/-- Embeds `TryFrom<KeyAttributes> for KeyAttributesProto`
(convert_key_attributes.rs, lines 64-84), the domain-to-wire encode:
`key_type` is emitted as its integer code, an absent `ecc_curve` as the
sentinel 0, the algorithm through `algorithmToProto` (whose failure
propagates); `key_size` and the six permission booleans pass through. -/
def encode (attrs : KeyAttributes) : Except ResponseStatus KeyAttributesProto :=
  match algorithmToProto attrs.algorithm with
  | .error e => .error e
  | .ok ap =>
    .ok { key_type := attrs.key_type.toI32
          ecc_curve := eccOptToI32 attrs.ecc_curve
          algorithm_proto := some ap
          key_size := attrs.key_size
          permit_export := attrs.permit_export
          permit_encrypt := attrs.permit_encrypt
          permit_decrypt := attrs.permit_decrypt
          permit_sign := attrs.permit_sign
          permit_verify := attrs.permit_verify
          permit_derive := attrs.permit_derive }

/-! Helper lemmas about the code tables and the per-field steps. -/

theorem keyTypeFromI32_toI32 (k : KeyType) : keyTypeFromI32 k.toI32 = some k := by
  cases k <;> rfl

theorem keyTypeToI32_of_fromI32 (c : Int) (k : KeyType)
    (h : keyTypeFromI32 c = some k) : k.toI32 = c := by
  unfold keyTypeFromI32 at h
  split_ifs at h with h1 h2
  · injection h with h3; subst h3; subst h1; rfl
  · injection h with h3; subst h3; subst h2; rfl

theorem eccCurveToI32_ne_zero (curve : EccCurve) : curve.toI32 ≠ 0 := by
  cases curve <;> decide

theorem eccCurveFromI32_toI32 (curve : EccCurve) :
    eccCurveFromI32 curve.toI32 = some curve := by
  cases curve <;> rfl

theorem eccCurveToI32_of_fromI32 (c : Int) (curve : EccCurve)
    (h : eccCurveFromI32 c = some curve) : curve.toI32 = c := by
  unfold eccCurveFromI32 at h
  split_ifs at h with h1 h2
  · injection h with h3; subst h3; subst h1; rfl
  · injection h with h3; subst h3; subst h2; rfl

theorem signAlgorithmFromI32_toI32 (s : SignAlgorithm) :
    signAlgorithmFromI32 s.toI32 = some s := by
  cases s <;> rfl

theorem signAlgorithmToI32_of_fromI32 (c : Int) (s : SignAlgorithm)
    (h : signAlgorithmFromI32 c = some s) : s.toI32 = c := by
  unfold signAlgorithmFromI32 at h
  split_ifs at h with h1 h2
  · injection h with h3; subst h3; subst h1; rfl
  · injection h with h3; subst h3; subst h2; rfl

theorem hashAlgorithmToI32_ne_zero (h : HashAlgorithm) : h.toI32 ≠ 0 := by
  cases h <;> decide

theorem hashAlgorithmFromI32_toI32 (h : HashAlgorithm) :
    hashAlgorithmFromI32 h.toI32 = some h := by
  cases h <;> rfl

theorem hashAlgorithmToI32_of_fromI32 (c : Int) (h : HashAlgorithm)
    (hc : hashAlgorithmFromI32 c = some h) : h.toI32 = c := by
  unfold hashAlgorithmFromI32 at hc
  split_ifs at hc with h1 h2
  · injection hc with h3; subst h3; subst h1; rfl
  · injection hc with h3; subst h3; subst h2; rfl

theorem decodeEccCurve_eccOptToI32 (oc : Option EccCurve) :
    decodeEccCurve (eccOptToI32 oc) = .ok oc := by
  rcases oc with _ | curve
  · rfl
  · simp [decodeEccCurve, eccOptToI32, isNoCurveSentinel,
      eccCurveToI32_ne_zero, eccCurveFromI32_toI32]

theorem eccOptToI32_of_decodeEccCurve (c : Int) (oc : Option EccCurve)
    (h : decodeEccCurve c = .ok oc) : eccOptToI32 oc = c := by
  unfold decodeEccCurve isNoCurveSentinel at h
  by_cases h0 : c = 0
  · simp [h0] at h
    simp [← h, eccOptToI32, h0]
  · simp [h0] at h
    rcases hc : eccCurveFromI32 c with _ | curve <;> rw [hc] at h
    · simp at h
    · simp at h
      simp [← h, eccOptToI32, eccCurveToI32_of_fromI32 c curve hc]

theorem algorithmFromProto_toProtoSign (s : SignAlgorithm) (oh : Option HashAlgorithm) :
    algorithmFromProto (.Sign { sign_algorithm := s.toI32, hash_algorithm := hashOptToI32 oh }) =
      .ok (Algorithm.sign s oh) := by
  rcases oh with _ | h
  · simp [algorithmFromProto, hashOptToI32, isNoHashSentinel, signAlgorithmFromI32_toI32]
  · simp [algorithmFromProto, hashOptToI32, isNoHashSentinel, signAlgorithmFromI32_toI32,
      hashAlgorithmToI32_ne_zero, hashAlgorithmFromI32_toI32]

theorem algorithmFromProto_ok_shape (ap : AlgorithmProto) (a : Algorithm)
    (h : algorithmFromProto ap = .ok a) :
    ∃ sp s oh, ap = .Sign sp ∧ a = Algorithm.sign s oh ∧
      s.toI32 = sp.sign_algorithm ∧ hashOptToI32 oh = sp.hash_algorithm := by
  rcases ap with sp | _
  · simp only [algorithmFromProto] at h
    rcases hs : signAlgorithmFromI32 sp.sign_algorithm with _ | s
    · simp [hs] at h
    · simp only [hs] at h
      by_cases h0 : sp.hash_algorithm = 0
      · rw [if_pos (by simp [isNoHashSentinel, h0])] at h
        injection h with h2
        exact ⟨sp, s, none, rfl, h2.symm, signAlgorithmToI32_of_fromI32 _ _ hs,
          by simp [hashOptToI32, h0]⟩
      · rw [if_neg (by simp [isNoHashSentinel, h0])] at h
        rcases hh : hashAlgorithmFromI32 sp.hash_algorithm with _ | ha
        · simp [hh] at h
        · simp only [hh] at h
          injection h with h2
          exact ⟨sp, s, some ha, rfl, h2.symm, signAlgorithmToI32_of_fromI32 _ _ hs,
            by simp [hashOptToI32, hashAlgorithmToI32_of_fromI32 _ _ hh]⟩
  · exact absurd h (by simp [algorithmFromProto])

theorem decodeEccCurve_error_inv (c : Int) (e : ResponseStatus)
    (h : decodeEccCurve c = .error e) :
    e = .InvalidEncoding ∧ c ≠ 0 ∧ eccCurveFromI32 c = none := by
  unfold decodeEccCurve at h
  by_cases h0 : c = 0
  · rw [if_pos (by simp [isNoCurveSentinel, h0])] at h
    exact absurd h (by simp)
  · rw [if_neg (by simp [isNoCurveSentinel, h0])] at h
    rcases hc : eccCurveFromI32 c with _ | curve <;> simp only [hc] at h
    · exact ⟨by injection h with h2; exact h2.symm, h0, rfl⟩
    · exact absurd h (by simp)

theorem decodeEccCurve_invalid (c : Int) (hne : c ≠ 0)
    (hnone : eccCurveFromI32 c = none) :
    decodeEccCurve c = .error .InvalidEncoding := by
  unfold decodeEccCurve
  rw [if_neg (by simp [isNoCurveSentinel, hne]), hnone]

theorem algorithmFromProto_error_inv (ap : AlgorithmProto) (e : ResponseStatus)
    (h : algorithmFromProto ap = .error e) :
    e = .InvalidEncoding ∨ (e = .PsaErrorNotSupported ∧ ap = .Cipher) := by
  rcases ap with sp | _
  · left
    simp only [algorithmFromProto] at h
    rcases hs : signAlgorithmFromI32 sp.sign_algorithm with _ | s <;> simp only [hs] at h
    · injection h with h2; exact h2.symm
    · by_cases h0 : sp.hash_algorithm = 0
      · rw [if_pos (by simp [isNoHashSentinel, h0])] at h
        exact absurd h (by simp)
      · rw [if_neg (by simp [isNoHashSentinel, h0])] at h
        rcases hh : hashAlgorithmFromI32 sp.hash_algorithm with _ | ha <;>
          simp only [hh] at h
        · injection h with h2; exact h2.symm
        · exact absurd h (by simp)
  · right
    refine ⟨?_, rfl⟩
    simp only [algorithmFromProto] at h
    injection h with h2; exact h2.symm

theorem decode_ok_inv (w : KeyAttributesProto) (v : KeyAttributes)
    (h : decode w = .ok v) :
    keyTypeFromI32 w.key_type = some v.key_type ∧
    decodeEccCurve w.ecc_curve = .ok v.ecc_curve ∧
    (∃ ap, w.algorithm_proto = some ap ∧ algorithmFromProto ap = .ok v.algorithm) ∧
    v.key_size = w.key_size ∧ v.permit_export = w.permit_export ∧
    v.permit_encrypt = w.permit_encrypt ∧ v.permit_decrypt = w.permit_decrypt ∧
    v.permit_sign = w.permit_sign ∧ v.permit_verify = w.permit_verify ∧
    v.permit_derive = w.permit_derive := by
  unfold decode at h
  rcases hk : keyTypeFromI32 w.key_type with _ | k <;> simp only [hk] at h
  · exact absurd h (by simp)
  · rcases he : decodeEccCurve w.ecc_curve with e | oc <;> simp only [he] at h
    · exact absurd h (by simp)
    · rcases hap : w.algorithm_proto with _ | ap <;> simp only [hap] at h
      · exact absurd h (by simp)
      · rcases ha : algorithmFromProto ap with e | a <;> simp only [ha] at h
        · exact absurd h (by simp)
        · injection h with h2
          subst h2
          exact ⟨rfl, rfl, ⟨ap, rfl, ha⟩, rfl, rfl, rfl, rfl, rfl, rfl, rfl⟩

theorem decode_error_inv (w : KeyAttributesProto) (e : ResponseStatus)
    (h : decode w = .error e) :
    e = .InvalidEncoding ∨ e = .PsaErrorNotSupported := by
  unfold decode at h
  rcases hk : keyTypeFromI32 w.key_type with _ | k <;> simp only [hk] at h
  · injection h with h2; exact Or.inl h2.symm
  · rcases he : decodeEccCurve w.ecc_curve with e2 | oc <;> simp only [he] at h
    · injection h with h2
      exact Or.inl (h2 ▸ (decodeEccCurve_error_inv _ _ he).1)
    · rcases hap : w.algorithm_proto with _ | ap <;> simp only [hap] at h
      · injection h with h2; exact Or.inl h2.symm
      · rcases ha : algorithmFromProto ap with e3 | a <;> simp only [ha] at h
        · injection h with h2
          subst h2
          rcases algorithmFromProto_error_inv _ _ ha with h3 | ⟨h3, _⟩
          · exact Or.inl h3
          · exact Or.inr h3
        · exact absurd h (by simp)

theorem encode_ok_inv (v : KeyAttributes) (p : KeyAttributesProto)
    (h : encode v = .ok p) :
    (∃ ap, algorithmToProto v.algorithm = .ok ap ∧ p.algorithm_proto = some ap) ∧
    p.key_type = v.key_type.toI32 ∧ p.ecc_curve = eccOptToI32 v.ecc_curve ∧
    p.key_size = v.key_size ∧ p.permit_export = v.permit_export ∧
    p.permit_encrypt = v.permit_encrypt ∧ p.permit_decrypt = v.permit_decrypt ∧
    p.permit_sign = v.permit_sign ∧ p.permit_verify = v.permit_verify ∧
    p.permit_derive = v.permit_derive := by
  unfold encode at h
  rcases ha : algorithmToProto v.algorithm with e | ap <;> simp only [ha] at h
  · exact absurd h (by simp)
  · injection h with h2
    subst h2
    exact ⟨⟨ap, rfl, rfl⟩, rfl, rfl, rfl, rfl, rfl, rfl, rfl, rfl, rfl⟩

theorem encode_error_inv (v : KeyAttributes) (e : ResponseStatus)
    (h : encode v = .error e) :
    e = .PsaErrorNotSupported ∧ v.algorithm.inner = .Cipher := by
  unfold encode at h
  rcases ha : algorithmToProto v.algorithm with e2 | ap <;> simp only [ha] at h
  · injection h with h2
    subst h2
    unfold algorithmToProto at ha
    rcases hi : v.algorithm.inner with _ | _ <;> simp only [hi] at ha
    · exact absurd ha (by simp)
    · exact ⟨by injection ha with h3; exact h3.symm, rfl⟩
  · exact absurd h (by simp)

theorem decodeEccCurve_ok (c : Int)
    (h : c = 0 ∨ (eccCurveFromI32 c).isSome) :
    ∃ oc, decodeEccCurve c = .ok oc := by
  by_cases h0 : c = 0
  · exact ⟨none, by simp [decodeEccCurve, isNoCurveSentinel, h0]⟩
  · rcases h with h | h
    · exact absurd h h0
    · rcases hc : eccCurveFromI32 c with _ | curve
      · rw [hc] at h; simp at h
      · exact ⟨some curve, by simp [decodeEccCurve, isNoCurveSentinel, h0, hc]⟩

theorem algorithmFromProto_ok_of (sp : Sign)
    (hs : (signAlgorithmFromI32 sp.sign_algorithm).isSome)
    (hh : sp.hash_algorithm = 0 ∨ (hashAlgorithmFromI32 sp.hash_algorithm).isSome) :
    ∃ a, algorithmFromProto (.Sign sp) = .ok a := by
  rcases hso : signAlgorithmFromI32 sp.sign_algorithm with _ | s
  · rw [hso] at hs; simp at hs
  · by_cases h0 : sp.hash_algorithm = 0
    · exact ⟨Algorithm.sign s none,
        by simp [algorithmFromProto, hso, isNoHashSentinel, h0]⟩
    · rcases hh with hh | hh
      · exact absurd hh h0
      · rcases hho : hashAlgorithmFromI32 sp.hash_algorithm with _ | ha
        · rw [hho] at hh; simp at hh
        · exact ⟨Algorithm.sign s (some ha),
            by simp [algorithmFromProto, hso, isNoHashSentinel, h0, hho]⟩

theorem hashOptToI32_eq_zero (oh : Option HashAlgorithm)
    (h : hashOptToI32 oh = 0) : oh = none := by
  rcases oh with _ | hh
  · rfl
  · exact absurd h (by simpa [hashOptToI32] using hashAlgorithmToI32_ne_zero hh)

/-! The claim theorems. -/

/-- The spec's section-8 scenario domain value: an RSA keypair with the
`Secp160k1` curve, the `Sign(RsaPkcs1v15Sign, Some(Sha1))` algorithm,
1024-bit key size and all six permissions granted. -/
def scenarioAttrs : KeyAttributes :=
  { key_type := .RsaKeypair
    ecc_curve := some .Secp160k1
    algorithm := Algorithm.sign .RsaPkcs1v15Sign (some .Sha1)
    key_size := 1024
    permit_export := true
    permit_encrypt := true
    permit_decrypt := true
    permit_sign := true
    permit_verify := true
    permit_derive := true }

/-- C1: for every `KeyAttributes` whose algorithm is the `Sign` variant —
any sign algorithm, any optional hash algorithm, any key type, any
optional curve, any key size and any permission booleans — encoding to
the wire form and decoding the result back yields exactly the original
value. -/
theorem sign_roundtrip_decode_encode (v : KeyAttributes) (s : SignAlgorithm)
    (oh : Option HashAlgorithm) (hv : v.algorithm = Algorithm.sign s oh) :
    ∃ p, encode v = .ok p ∧ decode p = .ok v := by
  have he : encode v = .ok
      { key_type := v.key_type.toI32
        ecc_curve := eccOptToI32 v.ecc_curve
        algorithm_proto := some (.Sign { sign_algorithm := s.toI32
                                         hash_algorithm := hashOptToI32 oh })
        key_size := v.key_size
        permit_export := v.permit_export
        permit_encrypt := v.permit_encrypt
        permit_decrypt := v.permit_decrypt
        permit_sign := v.permit_sign
        permit_verify := v.permit_verify
        permit_derive := v.permit_derive } := by
    unfold encode
    rw [hv]
    rfl
  refine ⟨_, he, ?_⟩
  simp only [decode, keyTypeFromI32_toI32, decodeEccCurve_eccOptToI32,
    algorithmFromProto_toProtoSign]
  rw [← hv]

/-- Witness for C1 at the spec's scenario value. -/
theorem sign_roundtrip_decode_encode_witness :
    ∃ p, encode scenarioAttrs = .ok p ∧ decode p = .ok scenarioAttrs :=
  sign_roundtrip_decode_encode scenarioAttrs .RsaPkcs1v15Sign (some .Sha1) rfl

/-- C4: for every wire value whose algorithm sub-message is absent,
decode returns `InvalidEncoding`, whatever the other fields hold. -/
theorem missing_algorithm_rejected (w : KeyAttributesProto)
    (hap : w.algorithm_proto = none) : decode w = .error .InvalidEncoding := by
  rcases hk : keyTypeFromI32 w.key_type with _ | k
  · simp [decode, hk]
  · rcases he : decodeEccCurve w.ecc_curve with e | oc
    · have h1 := (decodeEccCurve_error_inv _ _ he).1
      subst h1
      simp [decode, hk, he]
    · simp [decode, hk, he, hap]

/-- Witness for C4: a wire value with no algorithm sub-message. -/
theorem missing_algorithm_rejected_witness :
    decode { key_type := 8, ecc_curve := 0, algorithm_proto := none,
             key_size := 1024, permit_export := true, permit_encrypt := true,
             permit_decrypt := true, permit_sign := true, permit_verify := true,
             permit_derive := true } = .error .InvalidEncoding :=
  missing_algorithm_rejected _ rfl

/-- C7: whenever either conversion direction succeeds, `key_size` and the
six permission booleans of the output equal those of the input,
unchanged. -/
theorem passthrough_fields :
    (∀ w v, decode w = .ok v →
      v.key_size = w.key_size ∧ v.permit_export = w.permit_export ∧
      v.permit_encrypt = w.permit_encrypt ∧ v.permit_decrypt = w.permit_decrypt ∧
      v.permit_sign = w.permit_sign ∧ v.permit_verify = w.permit_verify ∧
      v.permit_derive = w.permit_derive) ∧
    (∀ v p, encode v = .ok p →
      p.key_size = v.key_size ∧ p.permit_export = v.permit_export ∧
      p.permit_encrypt = v.permit_encrypt ∧ p.permit_decrypt = v.permit_decrypt ∧
      p.permit_sign = v.permit_sign ∧ p.permit_verify = v.permit_verify ∧
      p.permit_derive = v.permit_derive) := by
  constructor
  · intro w v h
    obtain ⟨-, -, -, h4, h5, h6, h7, h8, h9, h10⟩ := decode_ok_inv w v h
    exact ⟨h4, h5, h6, h7, h8, h9, h10⟩
  · intro v p h
    obtain ⟨-, -, -, h4, h5, h6, h7, h8, h9, h10⟩ := encode_ok_inv v p h
    exact ⟨h4, h5, h6, h7, h8, h9, h10⟩

/-- Witness for C7 at the spec's scenario value in both directions. -/
theorem passthrough_fields_witness :
    (scenarioAttrs.key_size = 1024 ∧ scenarioAttrs.permit_export = true ∧
      scenarioAttrs.permit_encrypt = true ∧ scenarioAttrs.permit_decrypt = true ∧
      scenarioAttrs.permit_sign = true ∧ scenarioAttrs.permit_verify = true ∧
      scenarioAttrs.permit_derive = true) := by
  have h := passthrough_fields.1
    { key_type := 8, ecc_curve := 2,
      algorithm_proto := some (.Sign { sign_algorithm := 1, hash_algorithm := 5 }),
      key_size := 1024, permit_export := true, permit_encrypt := true,
      permit_decrypt := true, permit_sign := true, permit_verify := true,
      permit_derive := true }
    scenarioAttrs rfl
  exact h

/-- C8: encode is total on the supported subset — it succeeds exactly on
domain values whose algorithm is the `Sign` variant, for all values of
the remaining fields. -/
theorem encode_total_on_sign (v : KeyAttributes) :
    (∃ p, encode v = .ok p) ↔ ∃ s oh, v.algorithm.inner = .Sign s oh := by
  constructor
  · rintro ⟨p, hp⟩
    obtain ⟨⟨ap, ha, -⟩, -⟩ := encode_ok_inv v p hp
    cases hi : v.algorithm.inner with
    | Sign s oh => exact ⟨s, oh, rfl⟩
    | Cipher =>
      unfold algorithmToProto at ha
      simp only [hi] at ha
      exact absurd ha (by simp)
  · rintro ⟨s, oh, hi⟩
    have ha : algorithmToProto v.algorithm =
        .ok (.Sign { sign_algorithm := s.toI32, hash_algorithm := hashOptToI32 oh }) := by
      unfold algorithmToProto
      rw [hi]
    refine ⟨{ key_type := v.key_type.toI32
              ecc_curve := eccOptToI32 v.ecc_curve
              algorithm_proto := some (.Sign { sign_algorithm := s.toI32
                                               hash_algorithm := hashOptToI32 oh })
              key_size := v.key_size
              permit_export := v.permit_export
              permit_encrypt := v.permit_encrypt
              permit_decrypt := v.permit_decrypt
              permit_sign := v.permit_sign
              permit_verify := v.permit_verify
              permit_derive := v.permit_derive }, ?_⟩
    unfold encode
    rw [ha]

/-- C9: this layer produces no error other than `InvalidEncoding` and
`PsaErrorNotSupported` — every decode and every encode is either `Ok` or
one of these two errors. -/
theorem error_taxonomy (w : KeyAttributesProto) (v : KeyAttributes) :
    ((∃ u, decode w = .ok u) ∨ decode w = .error .InvalidEncoding ∨
      decode w = .error .PsaErrorNotSupported) ∧
    ((∃ p, encode v = .ok p) ∨ encode v = .error .InvalidEncoding ∨
      encode v = .error .PsaErrorNotSupported) := by
  constructor
  · rcases hd : decode w with e | u
    · rcases decode_error_inv w e hd with h | h <;> subst h
      · exact Or.inr (Or.inl rfl)
      · exact Or.inr (Or.inr rfl)
    · exact Or.inl ⟨u, rfl⟩
  · rcases he : encode v with e | p
    · have h := (encode_error_inv v e he).1
      subst h
      exact Or.inr (Or.inr rfl)
    · exact Or.inl ⟨p, rfl⟩

/-- C2: a wire value whose `ecc_curve` code is neither the sentinel 0 nor
a known curve code decodes to `InvalidEncoding`, and likewise a wire
value whose `Sign` sub-message carries a `hash_algorithm` code that is
neither 0 nor a known hash code decodes to `InvalidEncoding` — neither
unknown code is silently mapped to `None`. -/
theorem unknown_optional_code_rejected (w : KeyAttributesProto) :
    (w.ecc_curve ≠ 0 → eccCurveFromI32 w.ecc_curve = none →
      decode w = .error .InvalidEncoding) ∧
    (∀ sp, w.algorithm_proto = some (.Sign sp) → sp.hash_algorithm ≠ 0 →
      hashAlgorithmFromI32 sp.hash_algorithm = none →
      decode w = .error .InvalidEncoding) := by
  constructor
  · intro hne hnone
    rcases hk : keyTypeFromI32 w.key_type with _ | k
    · simp [decode, hk]
    · simp [decode, hk, decodeEccCurve_invalid _ hne hnone]
  · intro sp hap hne hnone
    have halg : algorithmFromProto (.Sign sp) = .error .InvalidEncoding := by
      rcases hs : signAlgorithmFromI32 sp.sign_algorithm with _ | s
      · simp [algorithmFromProto, hs]
      · simp [algorithmFromProto, hs, isNoHashSentinel, hne, hnone]
    rcases hk : keyTypeFromI32 w.key_type with _ | k
    · simp [decode, hk]
    · rcases he : decodeEccCurve w.ecc_curve with e | oc
      · have h1 := (decodeEccCurve_error_inv _ _ he).1
        subst h1
        simp [decode, hk, he]
      · simp [decode, hk, he, hap, halg]

/-- A wire value carrying the unknown curve code 7. -/
def protoUnknownCurve : KeyAttributesProto :=
  { key_type := 8, ecc_curve := 7
    algorithm_proto := some (.Sign { sign_algorithm := 1, hash_algorithm := 5 })
    key_size := 1024, permit_export := true, permit_encrypt := false
    permit_decrypt := false, permit_sign := true, permit_verify := true
    permit_derive := false }

/-- A wire value whose `Sign` sub-message carries the unknown hash code 3. -/
def protoUnknownHash : KeyAttributesProto :=
  { key_type := 8, ecc_curve := 0
    algorithm_proto := some (.Sign { sign_algorithm := 1, hash_algorithm := 3 })
    key_size := 1024, permit_export := true, permit_encrypt := false
    permit_decrypt := false, permit_sign := true, permit_verify := true
    permit_derive := false }

/-- Witness for C2 on both unknown-code cases. -/
theorem unknown_optional_code_rejected_witness :
    decode protoUnknownCurve = .error .InvalidEncoding ∧
    decode protoUnknownHash = .error .InvalidEncoding :=
  ⟨(unknown_optional_code_rejected protoUnknownCurve).1 (by decide) (by decide),
   (unknown_optional_code_rejected protoUnknownHash).2
      { sign_algorithm := 1, hash_algorithm := 3 } rfl (by decide) (by decide)⟩

/-- C3: a wire value whose `key_type` code matches no known variant
decodes to `InvalidEncoding`; likewise a wire value whose `Sign`
sub-message carries an unknown `sign_algorithm` code. -/
theorem unknown_required_code_rejected (w : KeyAttributesProto) :
    (keyTypeFromI32 w.key_type = none → decode w = .error .InvalidEncoding) ∧
    (∀ sp, w.algorithm_proto = some (.Sign sp) →
      signAlgorithmFromI32 sp.sign_algorithm = none →
      decode w = .error .InvalidEncoding) := by
  constructor
  · intro hk
    simp [decode, hk]
  · intro sp hap hs
    have halg : algorithmFromProto (.Sign sp) = .error .InvalidEncoding := by
      simp [algorithmFromProto, hs]
    rcases hk : keyTypeFromI32 w.key_type with _ | k
    · simp [decode, hk]
    · rcases he : decodeEccCurve w.ecc_curve with e | oc
      · have h1 := (decodeEccCurve_error_inv _ _ he).1
        subst h1
        simp [decode, hk, he]
      · simp [decode, hk, he, hap, halg]

/-- A wire value carrying the unknown key-type code 77. -/
def protoUnknownKeyType : KeyAttributesProto :=
  { key_type := 77, ecc_curve := 0
    algorithm_proto := some (.Sign { sign_algorithm := 1, hash_algorithm := 0 })
    key_size := 256, permit_export := false, permit_encrypt := false
    permit_decrypt := true, permit_sign := true, permit_verify := false
    permit_derive := false }

/-- A wire value whose `Sign` sub-message carries the unknown
sign-algorithm code 99. -/
def protoUnknownSignAlg : KeyAttributesProto :=
  { key_type := 8, ecc_curve := 2
    algorithm_proto := some (.Sign { sign_algorithm := 99, hash_algorithm := 0 })
    key_size := 256, permit_export := false, permit_encrypt := false
    permit_decrypt := true, permit_sign := true, permit_verify := false
    permit_derive := false }

/-- Witness for C3 on both unknown-code cases. -/
theorem unknown_required_code_rejected_witness :
    decode protoUnknownKeyType = .error .InvalidEncoding ∧
    decode protoUnknownSignAlg = .error .InvalidEncoding :=
  ⟨(unknown_required_code_rejected protoUnknownKeyType).1 (by decide),
   (unknown_required_code_rejected protoUnknownSignAlg).2
      { sign_algorithm := 99, hash_algorithm := 0 } rfl (by decide)⟩

/-- A wire value whose algorithm sub-message is present and not `Sign`,
but whose `key_type` code 999 matches no variant. -/
def protoCipherBadKeyType : KeyAttributesProto :=
  { key_type := 999, ecc_curve := 0, algorithm_proto := some .Cipher
    key_size := 0, permit_export := false, permit_encrypt := false
    permit_decrypt := false, permit_sign := false, permit_verify := false
    permit_derive := false }

/-- C5 counterexample: on a wire value whose algorithm sub-message is
present and not the `Sign` variant, decode can return `InvalidEncoding`
rather than `PsaErrorNotSupported`, because the `key_type` and
`ecc_curve` fields are validated before the algorithm is inspected. -/
theorem unsupported_variant_counterexample :
    protoCipherBadKeyType.algorithm_proto = some AlgorithmProto.Cipher ∧
    decode protoCipherBadKeyType = .error .InvalidEncoding ∧
    ResponseStatus.InvalidEncoding ≠ ResponseStatus.PsaErrorNotSupported :=
  ⟨rfl, rfl, by decide⟩

/-- C5 (amended): decode on a present non-`Sign` algorithm sub-message
returns `PsaErrorNotSupported` provided the `key_type` and `ecc_curve`
fields themselves decode (otherwise their `InvalidEncoding` takes
precedence); encode on any domain value whose algorithm is not the
`Sign` variant returns `PsaErrorNotSupported` unconditionally. -/
theorem unsupported_variant_rejected (w : KeyAttributesProto)
    (ap : AlgorithmProto) (v : KeyAttributes) :
    (w.algorithm_proto = some ap → (∀ sp, ap ≠ .Sign sp) →
      (keyTypeFromI32 w.key_type).isSome →
      (w.ecc_curve = 0 ∨ (eccCurveFromI32 w.ecc_curve).isSome) →
      decode w = .error .PsaErrorNotSupported) ∧
    ((∀ s oh, v.algorithm.inner ≠ .Sign s oh) →
      encode v = .error .PsaErrorNotSupported) := by
  constructor
  · intro hap hns hk he
    have hcip : ap = .Cipher := by
      cases ap with
      | Sign sp => exact absurd rfl (hns sp)
      | Cipher => rfl
    subst hcip
    obtain ⟨k, hk2⟩ := Option.isSome_iff_exists.mp hk
    obtain ⟨oc, he2⟩ := decodeEccCurve_ok _ he
    simp [decode, hk2, he2, hap, algorithmFromProto]
  · intro hns
    cases hi : v.algorithm.inner with
    | Sign s oh => exact absurd hi (hns s oh)
    | Cipher => simp [encode, algorithmToProto, hi]

/-- A well-formed wire value whose algorithm sub-message is the
unsupported `Cipher` variant. -/
def protoCipherValid : KeyAttributesProto :=
  { key_type := 8, ecc_curve := 2, algorithm_proto := some .Cipher
    key_size := 512, permit_export := false, permit_encrypt := true
    permit_decrypt := true, permit_sign := false, permit_verify := false
    permit_derive := false }

/-- A domain value whose algorithm is the unsupported `Cipher` variant. -/
def attrsCipher : KeyAttributes :=
  { key_type := .EccKeypair, ecc_curve := none, algorithm := ⟨.Cipher⟩
    key_size := 256, permit_export := false, permit_encrypt := false
    permit_decrypt := false, permit_sign := false, permit_verify := false
    permit_derive := false }

/-- Witness for the amended C5 in both directions. -/
theorem unsupported_variant_rejected_witness :
    decode protoCipherValid = .error .PsaErrorNotSupported ∧
    encode attrsCipher = .error .PsaErrorNotSupported :=
  ⟨(unsupported_variant_rejected protoCipherValid .Cipher attrsCipher).1 rfl
      (fun sp h => nomatch h) (by decide) (Or.inr (by decide)),
   (unsupported_variant_rejected protoCipherValid .Cipher attrsCipher).2
      (fun s oh h => nomatch h)⟩

/-- C6: sentinel symmetry — an absent `ecc_curve` encodes to wire code 0
and wire code 0 decodes back to an absent `ecc_curve`; the same holds
for the `hash_algorithm` field of the `Sign` sub-message. -/
theorem sentinel_symmetry :
    (∀ v p, v.ecc_curve = none → encode v = .ok p → p.ecc_curve = 0) ∧
    (∀ w u, w.ecc_curve = 0 → decode w = .ok u → u.ecc_curve = none) ∧
    (∀ v p s, v.algorithm = Algorithm.sign s none → encode v = .ok p →
      p.algorithm_proto =
        some (.Sign { sign_algorithm := s.toI32, hash_algorithm := 0 })) ∧
    (∀ w u sp, w.algorithm_proto = some (.Sign sp) → sp.hash_algorithm = 0 →
      decode w = .ok u → ∃ s, u.algorithm = Algorithm.sign s none) := by
  refine ⟨?_, ?_, ?_, ?_⟩
  · intro v p hv hp
    have h := (encode_ok_inv v p hp).2.2.1
    rw [h, hv]
    rfl
  · intro w u hw hu
    have h := (decode_ok_inv w u hu).2.1
    rw [hw] at h
    have h0 : decodeEccCurve 0 = Except.ok (none : Option EccCurve) := rfl
    rw [h0] at h
    injection h with h2
    exact h2.symm
  · intro v p s hv hp
    obtain ⟨⟨ap, ha, hap⟩, -⟩ := encode_ok_inv v p hp
    rw [hv] at ha
    have h1 : algorithmToProto (Algorithm.sign s none) =
        .ok (.Sign { sign_algorithm := s.toI32, hash_algorithm := 0 }) := rfl
    rw [h1] at ha
    injection ha with h2
    rw [hap, ← h2]
  · intro w u sp hap h0 hu
    obtain ⟨-, -, ⟨ap, hap2, ha⟩, -, -, -, -, -, -, -⟩ := decode_ok_inv w u hu
    rw [hap] at hap2
    injection hap2 with h2
    subst h2
    obtain ⟨sp2, s, oh, hsp, hae, -, hhi⟩ := algorithmFromProto_ok_shape _ _ ha
    injection hsp with h3
    subst h3
    rw [h0] at hhi
    have h4 := hashOptToI32_eq_zero _ hhi
    subst h4
    exact ⟨s, hae⟩

/-- A domain value with no curve and no hash. -/
def attrsNoOptional : KeyAttributes :=
  { key_type := .RsaKeypair, ecc_curve := none
    algorithm := Algorithm.sign .EcdsaSign none
    key_size := 42, permit_export := false, permit_encrypt := true
    permit_decrypt := false, permit_sign := true, permit_verify := false
    permit_derive := true }

/-- The wire form of `attrsNoOptional`: both sentinels are code 0. -/
def protoNoOptional : KeyAttributesProto :=
  { key_type := 8, ecc_curve := 0
    algorithm_proto := some (.Sign { sign_algorithm := 2, hash_algorithm := 0 })
    key_size := 42, permit_export := false, permit_encrypt := true
    permit_decrypt := false, permit_sign := true, permit_verify := false
    permit_derive := true }

/-- Witness for C6 on all four sentinel directions. -/
theorem sentinel_symmetry_witness :
    protoNoOptional.ecc_curve = 0 ∧
    attrsNoOptional.ecc_curve = none ∧
    protoNoOptional.algorithm_proto =
      some (.Sign { sign_algorithm := SignAlgorithm.EcdsaSign.toI32
                    hash_algorithm := 0 }) ∧
    ∃ s, attrsNoOptional.algorithm = Algorithm.sign s none :=
  ⟨sentinel_symmetry.1 attrsNoOptional protoNoOptional rfl rfl,
   sentinel_symmetry.2.1 protoNoOptional attrsNoOptional rfl rfl,
   sentinel_symmetry.2.2.1 attrsNoOptional protoNoOptional .EcdsaSign rfl rfl,
   sentinel_symmetry.2.2.2 protoNoOptional attrsNoOptional
      { sign_algorithm := 2, hash_algorithm := 0 } rfl rfl rfl⟩

/-- C10: every wire value whose `key_type` holds a known code, whose
`ecc_curve` is 0 or a known code, and whose algorithm sub-message is the
`Sign` variant with a known `sign_algorithm` and a `hash_algorithm` that
is 0 or a known code, decodes successfully, and encoding the decoded
value reproduces the wire value field for field. -/
theorem valid_wire_roundtrip (w : KeyAttributesProto) (sp : Sign)
    (hk : (keyTypeFromI32 w.key_type).isSome)
    (he : w.ecc_curve = 0 ∨ (eccCurveFromI32 w.ecc_curve).isSome)
    (hap : w.algorithm_proto = some (.Sign sp))
    (hs : (signAlgorithmFromI32 sp.sign_algorithm).isSome)
    (hh : sp.hash_algorithm = 0 ∨ (hashAlgorithmFromI32 sp.hash_algorithm).isSome) :
    ∃ v, decode w = .ok v ∧ encode v = .ok w := by
  obtain ⟨k, hk2⟩ := Option.isSome_iff_exists.mp hk
  obtain ⟨oc, he2⟩ := decodeEccCurve_ok _ he
  obtain ⟨a, ha2⟩ := algorithmFromProto_ok_of sp hs hh
  refine ⟨{ key_type := k, ecc_curve := oc, algorithm := a
            key_size := w.key_size, permit_export := w.permit_export
            permit_encrypt := w.permit_encrypt, permit_decrypt := w.permit_decrypt
            permit_sign := w.permit_sign, permit_verify := w.permit_verify
            permit_derive := w.permit_derive }, ?_, ?_⟩
  · simp [decode, hk2, he2, hap, ha2]
  · obtain ⟨sp2, s, oh, hsp, hae, hsi, hhi⟩ := algorithmFromProto_ok_shape _ _ ha2
    injection hsp with h3
    subst h3
    subst hae
    show Except.ok
        ({ key_type := k.toI32, ecc_curve := eccOptToI32 oc
           algorithm_proto := some (.Sign { sign_algorithm := s.toI32
                                            hash_algorithm := hashOptToI32 oh })
           key_size := w.key_size, permit_export := w.permit_export
           permit_encrypt := w.permit_encrypt, permit_decrypt := w.permit_decrypt
           permit_sign := w.permit_sign, permit_verify := w.permit_verify
           permit_derive := w.permit_derive } : KeyAttributesProto) = Except.ok w
    rw [keyTypeToI32_of_fromI32 _ _ hk2, eccOptToI32_of_decodeEccCurve _ _ he2,
      hsi, hhi]
    have h4 : ({ sign_algorithm := sp.sign_algorithm
                 hash_algorithm := sp.hash_algorithm } : Sign) = sp := rfl
    rw [h4, ← hap]

/-- The spec's section-8 scenario wire value. -/
def scenarioProto : KeyAttributesProto :=
  { key_type := 8, ecc_curve := 2
    algorithm_proto := some (.Sign { sign_algorithm := 1, hash_algorithm := 5 })
    key_size := 1024, permit_export := true, permit_encrypt := true
    permit_decrypt := true, permit_sign := true, permit_verify := true
    permit_derive := true }

/-- Witness for C10 at the spec's scenario wire value. -/
theorem valid_wire_roundtrip_witness :
    ∃ v, decode scenarioProto = .ok v ∧ encode v = .ok scenarioProto :=
  valid_wire_roundtrip scenarioProto { sign_algorithm := 1, hash_algorithm := 5 }
    (by decide) (Or.inr (by decide)) rfl (by decide) (Or.inr (by decide))

end ParsecKeyAttrs
